import Mathlib

/-!
Shallow embedding of `src/backend/server.js` (retrospective-board backend).

The server keeps three sqlite tables (`users`, `boards`, `notes`) and handles
JSON-over-HTTP requests.  We model:

* the database as three lists of rows (insertion order = rowid order);
* JSON leaf values (`JVal`) with JS truthiness and the text a value becomes
  when bound to a sqlite TEXT column via node-sqlite3 (`bindVal`); nested
  arrays/objects as field values are outside the model, the handlers only
  destructure primitive fields;
* the request body as either empty, malformed, or a parsed JSON object;
* sqlite statement semantics including the `NOT NULL`, `UNIQUE`,
  `PRIMARY KEY` and `FOREIGN KEY` (with `PRAGMA foreign_keys = ON`) checks
  of the schema created at startup; a failed statement leaves the
  database unchanged (ABORT semantics) and rejects, which the single
  `catch` at the request boundary turns into a 500 response;
* the dispatch chain of `http.createServer`'s callback in source order,
  including the fact that the `PUT /boards/:id` branch tests only
  `pathname.startsWith("/boards/")` and therefore also captures
  `PUT /boards/:id/notes/:noteId` requests;
* `formatDate()` results as opaque timestamp strings supplied per call
  (`now` for the first call in a handler, `now2` for the second), and
  `uuidv4()` as a supplied fresh id string.

`ORDER BY createdAt` compares TEXT values bytewise; timestamps are
`YYYY-MM-DD HH:MM:SS` strings, for which bytewise order is chronological
order, and `strLe` below is that comparison.
-/

namespace RetroBoard

/-- A primitive JSON value as produced by `JSON.parse` for a field. -/
inductive JVal where
  | null
  | str (s : String)
  | num (n : Int)
  | jbool (b : Bool)
deriving DecidableEq

/-- JS truthiness of a value (`!v` is `true` iff `v` is falsy). -/
def JVal.truthy : JVal → Bool
  | .null => false
  | .str s => !(s == "")
  | .num n => !(n == 0)
  | .jbool b => b

/-- Truthiness of a possibly-absent field (`undefined` is falsy). -/
def truthyOpt : Option JVal → Bool
  | none => false
  | some v => v.truthy

/-- The text stored in / compared against a sqlite TEXT column when a JS
value is bound by node-sqlite3: `undefined`/`null` bind as SQL NULL,
numbers and booleans are converted by TEXT affinity. -/
def bindVal : Option JVal → Option String
  | none => none
  | some .null => none
  | some (.str s) => some s
  | some (.num n) => some (toString n)
  | some (.jbool b) => some (if b then "1" else "0")

/-- The raw request payload: absent/empty, invalid JSON, or a JSON object
(field list in source order; `JSON.parse` keeps the last duplicate). -/
inductive RawBody where
  | empty
  | malformed
  | jsonObj (fields : List (String × JVal))
deriving DecidableEq

/-- `parseJSONBody`: empty body parses to `{}`, invalid JSON rejects. -/
def parseJSONBody : RawBody → Except String (List (String × JVal))
  | .empty => .ok []
  | .malformed => .error "invalid json"
  | .jsonObj fs => .ok fs

/-- Field lookup in a parsed object (last duplicate key wins, as in JS). -/
def lookupField (fs : List (String × JVal)) (k : String) : Option JVal :=
  (fs.reverse.find? (fun kv => kv.fst == k)).map Prod.snd

/-- A row of the `users` table. -/
structure UserRow where
  id : String
  email : String
  password : String
  createdAt : String
deriving DecidableEq

/-- A row of the `boards` table. -/
structure BoardRow where
  id : String
  userId : String
  title : String
  createdAt : String
  updatedAt : String
deriving DecidableEq

/-- A row of the `notes` table. -/
structure NoteRow where
  id : String
  boardId : String
  columnName : String
  text : String
  createdAt : String
deriving DecidableEq

/-- The sqlite database: three tables, rows in rowid (insertion) order. -/
structure DB where
  users : List UserRow
  boards : List BoardRow
  notes : List NoteRow
deriving DecidableEq

/-! ### String utilities (pathname splitting and TEXT ordering) -/

/-- Split a character list on a separator (skeleton of `String.split`):
`splitOnChar '/' "/a/b".data = [[], ['a'], ['b']]`. -/
def splitOnChar (sep : Char) : List Char → List (List Char)
  | [] => [[]]
  | c :: rest =>
    let r := splitOnChar sep rest
    if c = sep then [] :: r
    else
      match r with
      | [] => [[c]]
      | g :: gs => (c :: g) :: gs

/-- JS `pathname.split("/")`. -/
def splitSlash (p : String) : List String :=
  (splitOnChar '/' p.data).map (fun cs => ⟨cs⟩)

/-- JS `pathname.split("/")[2]` (a missing index is `undefined`; every
pathname reaching this has at least three segments, and an `undefined`
bind behaves like the empty id: it matches no row). -/
def pathSeg2 (p : String) : String := (splitSlash p).getD 2 ""

/-- Bytewise list-prefix test, the skeleton of JS `String.startsWith`. -/
def leadsWith : List Char → List Char → Bool
  | [], _ => true
  | _ :: _, [] => false
  | a :: as, b :: bs => a == b && leadsWith as bs

/-- JS `pathname.startsWith("/boards/")` (the `PUT /boards/:id` route test). -/
def pathStartsWithBoards (p : String) : Bool := leadsWith "/boards/".data p.data

/-- Bytewise `≤` on character lists: sqlite's TEXT comparison. -/
def charListLe : List Char → List Char → Bool
  | [], _ => true
  | _ :: _, [] => false
  | a :: as, b :: bs =>
    if a.toNat < b.toNat then true
    else if b.toNat < a.toNat then false
    else charListLe as bs

/-- Bytewise `≤` on strings: the order sqlite's `ORDER BY` uses on the
`createdAt` TEXT column. -/
def strLe (a b : String) : Bool := charListLe a.data b.data

/-! ### Sorting (the effect of `ORDER BY createdAt ASC` / `DESC`) -/

/-- Insert into an ascending-sorted list. -/
def insertAscBy (key : α → String) (a : α) : List α → List α
  | [] => [a]
  | b :: bs => if strLe (key a) (key b) then a :: b :: bs else b :: insertAscBy key a bs

/-- Sort ascending by a string key (`ORDER BY key ASC`). -/
def sortAscBy (key : α → String) : List α → List α
  | [] => []
  | a :: rest => insertAscBy key a (sortAscBy key rest)

/-- Insert into a descending-sorted list. -/
def insertDescBy (key : α → String) (a : α) : List α → List α
  | [] => [a]
  | b :: bs => if strLe (key b) (key a) then a :: b :: bs else b :: insertDescBy key a bs

/-- Sort descending by a string key (`ORDER BY key DESC`). -/
def sortDescBy (key : α → String) : List α → List α
  | [] => []
  | a :: rest => insertDescBy key a (sortDescBy key rest)

/-! ### SQL statements used by the handlers -/

/-- `SELECT * FROM users WHERE email = ?` (a NULL bind matches no row). -/
def findUserByEmail (db : DB) (e : Option String) : Option UserRow :=
  match e with
  | none => none
  | some s => db.users.find? (fun u => u.email == s)

/-- `INSERT INTO users (id, email, password, createdAt) VALUES (?, ?, ?, ?)`
with the schema's PRIMARY KEY, UNIQUE(email) and NOT NULL checks. -/
def insertUser (db : DB) (id : String) (email password : Option String)
    (createdAt : String) : Except String DB :=
  match email, password with
  | some e, some p =>
    if db.users.any (fun u => u.id == id) then
      .error "UNIQUE constraint failed: users.id"
    else if db.users.any (fun u => u.email == e) then
      .error "UNIQUE constraint failed: users.email"
    else
      .ok { db with users := db.users ++ [⟨id, e, p, createdAt⟩] }
  | _, _ => .error "NOT NULL constraint failed: users"

/-- `INSERT INTO boards (...) VALUES (?, ?, ?, ?, ?)` with PRIMARY KEY,
NOT NULL and the `userId` FOREIGN KEY check (`PRAGMA foreign_keys = ON`). -/
def insertBoard (db : DB) (id : String) (userId title : Option String)
    (createdAt updatedAt : String) : Except String DB :=
  match userId, title with
  | some u, some t =>
    if db.boards.any (fun b => b.id == id) then
      .error "UNIQUE constraint failed: boards.id"
    else if db.users.any (fun x => x.id == u) then
      .ok { db with boards := db.boards ++ [⟨id, u, t, createdAt, updatedAt⟩] }
    else .error "FOREIGN KEY constraint failed"
  | _, _ => .error "NOT NULL constraint failed: boards"

/-- `INSERT INTO notes (...) VALUES (?, ?, ?, ?, ?)` with PRIMARY KEY,
NOT NULL and the `boardId` FOREIGN KEY check. -/
def insertNote (db : DB) (id boardId : String) (columnName text : Option String)
    (createdAt : String) : Except String DB :=
  match columnName, text with
  | some c, some t =>
    if db.notes.any (fun n => n.id == id) then
      .error "UNIQUE constraint failed: notes.id"
    else if db.boards.any (fun b => b.id == boardId) then
      .ok { db with notes := db.notes ++ [⟨id, boardId, c, t, createdAt⟩] }
    else .error "FOREIGN KEY constraint failed"
  | _, _ => .error "NOT NULL constraint failed: notes"

/-- `UPDATE boards SET title = ?, updatedAt = ? WHERE id = ?`; binding a
NULL title aborts with a NOT NULL failure iff some row matches. -/
def updateBoardTitle (db : DB) (title : Option String) (updatedAt : String)
    (boardId : String) : Except String DB :=
  if db.boards.any (fun b => b.id == boardId) then
    match title with
    | none => .error "NOT NULL constraint failed: boards.title"
    | some t =>
      .ok { db with boards := db.boards.map (fun b =>
              if b.id == boardId then { b with title := t, updatedAt := updatedAt } else b) }
  else .ok db

/-- `UPDATE boards SET updatedAt = ? WHERE id = ?` (never fails). -/
def touchBoard (db : DB) (updatedAt : String) (boardId : String) : DB :=
  { db with boards := db.boards.map (fun b =>
      if b.id == boardId then { b with updatedAt := updatedAt } else b) }

/-- `DELETE FROM notes WHERE boardId = ?`. -/
def deleteNotesOfBoard (db : DB) (boardId : String) : DB :=
  { db with notes := db.notes.filter (fun n => !(n.boardId == boardId)) }

/-- `DELETE FROM boards WHERE id = ?`; `ON DELETE CASCADE` also removes
any remaining notes of the deleted board. -/
def deleteBoardRow (db : DB) (boardId : String) : DB :=
  { db with boards := db.boards.filter (fun b => !(b.id == boardId)),
            notes := db.notes.filter (fun n => !(n.boardId == boardId)) }

/-- `DELETE FROM notes WHERE id = ?`. -/
def deleteNoteById (db : DB) (noteId : String) : DB :=
  { db with notes := db.notes.filter (fun n => !(n.id == noteId)) }

/-- `UPDATE notes SET columnName = ?, text = ? WHERE id = ?` with NOT NULL
checks (both binds may be NULL; the statement aborts iff a row matches). -/
def updateNoteColText (db : DB) (columnName text : Option String)
    (noteId : String) : Except String DB :=
  if db.notes.any (fun n => n.id == noteId) then
    match columnName, text with
    | some c, some t =>
      .ok { db with notes := db.notes.map (fun n =>
              if n.id == noteId then { n with columnName := c, text := t } else n) }
    | _, _ => .error "NOT NULL constraint failed: notes"
  else .ok db

/-- `UPDATE notes SET columnName = ? WHERE id = ?`. -/
def updateNoteCol (db : DB) (columnName : Option String)
    (noteId : String) : Except String DB :=
  if db.notes.any (fun n => n.id == noteId) then
    match columnName with
    | some c =>
      .ok { db with notes := db.notes.map (fun n =>
              if n.id == noteId then { n with columnName := c } else n) }
    | none => .error "NOT NULL constraint failed: notes.columnName"
  else .ok db

/-- `UPDATE notes SET text = ? WHERE id = ?`. -/
def updateNoteText (db : DB) (text : Option String)
    (noteId : String) : Except String DB :=
  if db.notes.any (fun n => n.id == noteId) then
    match text with
    | some t =>
      .ok { db with notes := db.notes.map (fun n =>
              if n.id == noteId then { n with text := t } else n) }
    | none => .error "NOT NULL constraint failed: notes.text"
  else .ok db

/-! ### Response shaping (`GET /boards` builds a `columns` structure) -/

/-- The note shape pushed into a column: `{ id, text, createdAt }`. -/
structure ShapedNote where
  id : String
  text : String
  createdAt : String
deriving DecidableEq

/-- Project a note row to its column entry. -/
def shapeNote (n : NoteRow) : ShapedNote := ⟨n.id, n.text, n.createdAt⟩

/-- The `columns` object: `{ Start: [...], Stop: [...], Continue: [...] }`. -/
structure Columns where
  colStart : List ShapedNote
  colStop : List ShapedNote
  colContinue : List ShapedNote
deriving DecidableEq

/-- The fresh `{ Start: [], Stop: [], Continue: [] }`. -/
def emptyColumns : Columns := ⟨[], [], []⟩

/-- `columns[n.columnName].push({id, text, createdAt})`: pushing under a key
other than the three fixed ones is `undefined.push`, a thrown TypeError. -/
def pushNote (c : Columns) (n : NoteRow) : Except String Columns :=
  if n.columnName == "Start" then
    .ok { c with colStart := c.colStart ++ [shapeNote n] }
  else if n.columnName == "Stop" then
    .ok { c with colStop := c.colStop ++ [shapeNote n] }
  else if n.columnName == "Continue" then
    .ok { c with colContinue := c.colContinue ++ [shapeNote n] }
  else .error "TypeError: cannot read push of undefined"

/-- The `for (const n of notes)` grouping loop over an accumulator. -/
def fillColumns (c : Columns) : List NoteRow → Except String Columns
  | [] => .ok c
  | n :: ns =>
    match pushNote c n with
    | .error e => .error e
    | .ok c' => fillColumns c' ns

/-- Group a board's (already sorted) notes into columns. -/
def shapeColumns (ns : List NoteRow) : Except String Columns :=
  fillColumns emptyColumns ns

/-- The `{...b, columns}` object pushed into the results array. -/
structure ShapedBoard where
  board : BoardRow
  columns : Columns
deriving DecidableEq

/-- `SELECT * FROM notes WHERE boardId = ?` (result order before sorting). -/
def notesOf (db : DB) (boardId : String) : List NoteRow :=
  db.notes.filter (fun n => n.boardId == boardId)

/-- One iteration of the board loop: fetch the board's notes ordered by
`createdAt ASC` and group them into columns. -/
def shapeBoard (db : DB) (b : BoardRow) : Except String ShapedBoard :=
  match shapeColumns (sortAscBy NoteRow.createdAt (notesOf db b.id)) with
  | .error e => .error e
  | .ok cols => .ok ⟨b, cols⟩

/-- The `for (const b of boards)` loop building `results` in order. -/
def listBoardsAux (db : DB) : List BoardRow → Except String (List ShapedBoard)
  | [] => .ok []
  | b :: bs =>
    match shapeBoard db b with
    | .error e => .error e
    | .ok sb =>
      match listBoardsAux db bs with
      | .error e => .error e
      | .ok rest => .ok (sb :: rest)

/-- `GET /boards` body: boards of the user ordered `createdAt DESC`, each
with its notes grouped into columns. -/
def listBoards (db : DB) (userId : String) : Except String (List ShapedBoard) :=
  listBoardsAux db (sortDescBy BoardRow.createdAt (db.boards.filter (fun b => b.userId == userId)))

/-! ### Requests and responses -/

/-- HTTP method. -/
inductive Method where
  | GET | POST | PUT | DELETE | OPTIONS
deriving DecidableEq

/-- An incoming request: method, `url.pathname`,
`url.searchParams.get("userId")`, and the raw payload. -/
structure Request where
  method : Method
  pathname : String
  userIdQuery : Option String
  body : RawBody
deriving DecidableEq

/-- The JSON value serialized by `sendJSON` (or `undefined`), one
constructor per object literal in the source. -/
inductive RespBody where
  | errorMsg (msg : String)
  | registerSummary (id : String) (email : JVal) (createdAt : String)
  | loginSummary (id : String) (email : String) (createdAt : String)
  | boardsList (xs : List ShapedBoard)
  | newBoard (id : String) (userId title : JVal) (createdAt updatedAt : String)
      (columns : Columns)
  | boardRowOpt (b : Option BoardRow)
  | noteCreated (id boardId : String) (columnName text : JVal) (createdAt : String)
  | noteRowOpt (n : Option NoteRow)
  | okTrue
  | noContent
deriving DecidableEq

/-- Top-level keys of the serialized response object (empty for arrays,
rows absent from the store, and bodyless responses). -/
def respKeys : RespBody → List String
  | .errorMsg _ => ["error"]
  | .registerSummary _ _ _ => ["id", "email", "createdAt"]
  | .loginSummary _ _ _ => ["id", "email", "createdAt"]
  | .boardsList _ => []
  | .newBoard _ _ _ _ _ _ => ["id", "userId", "title", "createdAt", "updatedAt", "columns"]
  | .boardRowOpt none => []
  | .boardRowOpt (some _) => ["id", "userId", "title", "createdAt", "updatedAt"]
  | .noteCreated _ _ _ _ _ => ["id", "boardId", "columnName", "text", "createdAt"]
  | .noteRowOpt none => []
  | .noteRowOpt (some _) => ["id", "boardId", "columnName", "text", "createdAt"]
  | .okTrue => ["ok"]
  | .noContent => []

/-- Outcome of one request: resulting store, HTTP status, response body. -/
structure HResult where
  db : DB
  status : Nat
  body : RespBody
deriving DecidableEq

/-- The outer `catch`: any rejected promise becomes a 500 response. -/
def serverError (db : DB) : HResult := ⟨db, 500, .errorMsg "Server Error"⟩

/-! ### Route handlers -/

/-- `POST /register`. -/
def handleRegister (db : DB) (body : RawBody) (now freshId : String) : HResult :=
  match parseJSONBody body with
  | .error _ => serverError db
  | .ok fs =>
    let email := lookupField fs "email"
    let password := lookupField fs "password"
    if !truthyOpt email || !truthyOpt password then
      ⟨db, 400, .errorMsg "email/password required"⟩
    else
      match findUserByEmail db (bindVal email) with
      | some _ => ⟨db, 409, .errorMsg "Email already registered"⟩
      | none =>
        match insertUser db freshId (bindVal email) (bindVal password) now with
        | .error _ => serverError db
        | .ok db' => ⟨db', 200, .registerSummary freshId (email.getD .null) now⟩

/-- `POST /login`. -/
def handleLogin (db : DB) (body : RawBody) : HResult :=
  match parseJSONBody body with
  | .error _ => serverError db
  | .ok fs =>
    let email := lookupField fs "email"
    let password := lookupField fs "password"
    if !truthyOpt email || !truthyOpt password then
      ⟨db, 400, .errorMsg "email/password required"⟩
    else
      match bindVal email, bindVal password with
      | some e, some p =>
        match db.users.find? (fun u => u.email == e && u.password == p) with
        | none => ⟨db, 401, .errorMsg "Invalid email or password"⟩
        | some u => ⟨db, 200, .loginSummary u.id u.email u.createdAt⟩
      | _, _ => ⟨db, 401, .errorMsg "Invalid email or password"⟩

/-- `GET /boards`. -/
def handleGetBoards (db : DB) (userIdQuery : Option String) : HResult :=
  match userIdQuery with
  | none => ⟨db, 400, .errorMsg "userId required"⟩
  | some q =>
    if q == "" then ⟨db, 400, .errorMsg "userId required"⟩
    else
      match listBoards db q with
      | .error _ => serverError db
      | .ok xs => ⟨db, 200, .boardsList xs⟩

/-- `POST /boards`. -/
def handleCreateBoard (db : DB) (body : RawBody) (now freshId : String) : HResult :=
  match parseJSONBody body with
  | .error _ => serverError db
  | .ok fs =>
    let userId := lookupField fs "userId"
    let title := lookupField fs "title"
    if !truthyOpt userId || !truthyOpt title then
      ⟨db, 400, .errorMsg "userId and title required"⟩
    else
      match insertBoard db freshId (bindVal userId) (bindVal title) now now with
      | .error _ => serverError db
      | .ok db' =>
        ⟨db', 200, .newBoard freshId (userId.getD .null) (title.getD .null) now now
          emptyColumns⟩

/-- The `pathname.startsWith("/boards/") && PUT` branch (board update).
Because of the `startsWith` test it also receives every
`PUT /boards/:id/notes/:noteId` request. -/
def handleUpdateBoard (db : DB) (pathname : String) (body : RawBody)
    (now : String) : HResult :=
  let boardId := pathSeg2 pathname
  match parseJSONBody body with
  | .error _ => serverError db
  | .ok fs =>
    let title := lookupField fs "title"
    match updateBoardTitle db (bindVal title) now boardId with
    | .error _ => serverError db
    | .ok db' => ⟨db', 200, .boardRowOpt (db'.boards.find? (fun b => b.id == boardId))⟩

/-- `DELETE /boards/:id`: delete the notes, then the board. -/
def handleDeleteBoard (db : DB) (boardId : String) : HResult :=
  let db1 := deleteNotesOfBoard db boardId
  let db2 := deleteBoardRow db1 boardId
  ⟨db2, 200, .okTrue⟩

/-- `POST /boards/:id/notes`: insert the note, then bump the board's
`updatedAt` with a second `formatDate()` call. -/
def handleCreateNote (db : DB) (boardId : String) (body : RawBody)
    (now now2 freshId : String) : HResult :=
  match parseJSONBody body with
  | .error _ => serverError db
  | .ok fs =>
    let columnName := lookupField fs "columnName"
    let text := lookupField fs "text"
    if boardId == "" || !truthyOpt columnName || !truthyOpt text then
      ⟨db, 400, .errorMsg "boardId, columnName and text required"⟩
    else
      match insertNote db freshId boardId (bindVal columnName) (bindVal text) now with
      | .error _ => serverError db
      | .ok db' =>
        let db'' := touchBoard db' now2 boardId
        ⟨db'', 200, .noteCreated freshId boardId (columnName.getD .null)
          (text.getD .null) now⟩

/-- The `PUT /boards/:id/notes/:noteId` handler of the source (lines
260-286).  It is unreachable: the `startsWith("/boards/")` branch above
captures every `PUT` under `/boards/` first. -/
def handleUpdateNote (db : DB) (boardId noteId : String) (body : RawBody)
    (now : String) : HResult :=
  match parseJSONBody body with
  | .error _ => serverError db
  | .ok fs =>
    let columnName := lookupField fs "columnName"
    let text := lookupField fs "text"
    let step : Except String DB :=
      if truthyOpt columnName && text.isSome then
        updateNoteColText db (bindVal columnName) (bindVal text) noteId
      else if truthyOpt columnName then
        updateNoteCol db (bindVal columnName) noteId
      else
        updateNoteText db (bindVal text) noteId
    match step with
    | .error _ => serverError db
    | .ok db' =>
      let db'' := touchBoard db' now boardId
      ⟨db'', 200, .noteRowOpt (db''.notes.find? (fun n => n.id == noteId))⟩

/-- `DELETE /boards/:id/notes/:noteId`: delete the note by id (no board
check), then bump the path board's `updatedAt`. -/
def handleDeleteNote (db : DB) (boardId noteId : String) (now : String) : HResult :=
  let db1 := deleteNoteById db noteId
  let db2 := touchBoard db1 now boardId
  ⟨db2, 200, .okTrue⟩

/-! ### The dispatch chain of `http.createServer`'s callback -/

/-- `^\/boards\/[^/]+$`, together with `pathname.split("/")[2]`. -/
def matchBoardsId (p : String) : Option String :=
  match splitSlash p with
  | ["", "boards", bid] => if bid == "" then none else some bid
  | _ => none

/-- `^\/boards\/[^/]+\/notes$`, together with `pathname.split("/")[2]`. -/
def matchBoardsNotes (p : String) : Option String :=
  match splitSlash p with
  | ["", "boards", bid, "notes"] => if bid == "" then none else some bid
  | _ => none

/-- `^\/boards\/[^/]+\/notes\/[^/]+$`, together with
`pathname.split("/").filter(Boolean)[1]` and `[3]`. -/
def matchBoardsNotesId (p : String) : Option (String × String) :=
  match splitSlash p with
  | ["", "boards", bid, "notes", nid] =>
    if bid == "" || nid == "" then none else some (bid, nid)
  | _ => none

/-- One request, in the exact source order of the `if` chain.  `now` and
`now2` are the results of the first and second `formatDate()` call of the
chosen handler; `freshId` is the `uuidv4()` result. -/
def handle (db : DB) (req : Request) (now now2 freshId : String) : HResult :=
  if req.method == .OPTIONS then ⟨db, 204, .noContent⟩
  else if req.pathname == "/register" && req.method == .POST then
    handleRegister db req.body now freshId
  else if req.pathname == "/login" && req.method == .POST then
    handleLogin db req.body
  else if req.pathname == "/boards" && req.method == .GET then
    handleGetBoards db req.userIdQuery
  else if req.pathname == "/boards" && req.method == .POST then
    handleCreateBoard db req.body now freshId
  else if pathStartsWithBoards req.pathname && req.method == .PUT then
    handleUpdateBoard db req.pathname req.body now
  else if (matchBoardsId req.pathname).isSome && req.method == .DELETE then
    handleDeleteBoard db ((matchBoardsId req.pathname).getD "")
  else if (matchBoardsNotes req.pathname).isSome && req.method == .POST then
    handleCreateNote db ((matchBoardsNotes req.pathname).getD "") req.body now now2 freshId
  else if (matchBoardsNotesId req.pathname).isSome && req.method == .PUT then
    let pr := (matchBoardsNotesId req.pathname).getD ("", "")
    handleUpdateNote db pr.fst pr.snd req.body now
  else if (matchBoardsNotesId req.pathname).isSome && req.method == .DELETE then
    let pr := (matchBoardsNotesId req.pathname).getD ("", "")
    handleDeleteNote db pr.fst pr.snd now
  else ⟨db, 404, .errorMsg "Not Found"⟩

/-! ### Spec-side definitions used by the theorems -/

/-- Validity of a stored column name (the three keys of the `columns`
object built by `GET /boards`). -/
def validColumnName (c : String) : Prop :=
  c = "Start" ∨ c = "Stop" ∨ c = "Continue"

instance (c : String) : Decidable (validColumnName c) := by
  unfold validColumnName; infer_instance

/-- What the grouping loop produces on a valid note list. -/
def columnsSpec (ns : List NoteRow) : Columns :=
  ⟨(ns.filter (fun n => n.columnName == "Start")).map shapeNote,
   (ns.filter (fun n => n.columnName == "Stop")).map shapeNote,
   (ns.filter (fun n => n.columnName == "Continue")).map shapeNote⟩

/-- Rejoin the groups produced by `splitOnChar` (its left inverse). -/
def unsplit (sep : Char) : List (List Char) → List Char
  | [] => []
  | [g] => g
  | g :: gs => g ++ sep :: unsplit sep gs

/-- At most one stored user per email address. -/
def emailsUnique (db : DB) : Prop :=
  db.users.Pairwise (fun u v => u.email ≠ v.email)

/-- A `POST /register` request with string credentials. -/
def regReq (e p : String) : Request :=
  ⟨.POST, "/register", none, .jsonObj [("email", .str e), ("password", .str p)]⟩

/-- A `POST /login` request with string credentials. -/
def loginReq (e p : String) : Request :=
  ⟨.POST, "/login", none, .jsonObj [("email", .str e), ("password", .str p)]⟩

/-! ### Concrete stores and requests for counterexamples and witnesses -/

/-- The empty store (fresh database file). -/
def emptyDB : DB := ⟨[], [], []⟩

/-- A store with one user and one board and no notes. -/
def dbOneBoard : DB :=
  ⟨[⟨"u1", "ann@example.com", "pw", "2024-01-01 00:00:00"⟩],
   [⟨"b1", "u1", "Sprint 1", "2024-01-01 00:00:01", "2024-01-01 00:00:01"⟩],
   []⟩

/-- `dbOneBoard` plus one note in column Start. -/
def dbWithNote : DB :=
  ⟨dbOneBoard.users, dbOneBoard.boards,
   [⟨"n1", "b1", "Start", "first note", "2024-01-01 10:00:00"⟩]⟩

/-- Create a note whose column name is not one of the three fixed values. -/
def bogusNoteReq : Request :=
  ⟨.POST, "/boards/b1/notes", none,
   .jsonObj [("columnName", .str "Bogus"), ("text", .str "hi")]⟩

/-- List the boards of user `u1`. -/
def listBoardsReq : Request := ⟨.GET, "/boards", some "u1", .empty⟩

/-- A typical note-update request: new text for note `n1` of board `b1`. -/
def putNoteReq : Request :=
  ⟨.PUT, "/boards/b1/notes/n1", none, .jsonObj [("text", .str "new text")]⟩

/-- A note-update request naming a note id absent from the store. -/
def putAbsentNoteReq : Request :=
  ⟨.PUT, "/boards/b1/notes/n9", none, .jsonObj [("text", .str "x")]⟩

/-- A note-delete request naming a note id absent from the store. -/
def delAbsentNoteReq : Request :=
  ⟨.DELETE, "/boards/b1/notes/n9", none, .empty⟩

/-- `dbOneBoard` plus three notes: two Start notes inserted out of
chronological order and one Stop note. -/
def dbThreeNotes : DB :=
  ⟨dbOneBoard.users, dbOneBoard.boards,
   [⟨"n2", "b1", "Start", "second", "2024-01-02 10:00:00"⟩,
    ⟨"n1", "b1", "Start", "first", "2024-01-01 10:00:00"⟩,
    ⟨"n3", "b1", "Stop", "stop it", "2024-01-01 11:00:00"⟩]⟩

/-! ### Ordering lemmas -/

theorem charListLe_total (a b : List Char) :
    charListLe a b = true ∨ charListLe b a = true := by
  induction a generalizing b with
  | nil => exact Or.inl rfl
  | cons x xs ih =>
    cases b with
    | nil => exact Or.inr rfl
    | cons y ys =>
      simp only [charListLe]
      rcases Nat.lt_trichotomy x.toNat y.toNat with h | h | h
      · left; simp [h]
      · have h1 : ¬ x.toNat < y.toNat := by omega
        have h2 : ¬ y.toNat < x.toNat := by omega
        simp only [h1, h2, if_false, if_true, if_neg, ite_false]
        simpa [h1, h2] using ih ys
      · right; simp [h]

theorem charListLe_trans (a b c : List Char) (hab : charListLe a b = true)
    (hbc : charListLe b c = true) : charListLe a c = true := by
  induction a generalizing b c with
  | nil => rfl
  | cons x xs ih =>
    cases b with
    | nil => simp [charListLe] at hab
    | cons y ys =>
      cases c with
      | nil => simp [charListLe] at hbc
      | cons z zs =>
        simp only [charListLe] at hab hbc ⊢
        by_cases hxy : x.toNat < y.toNat
        · by_cases hyz : y.toNat < z.toNat
          · have : x.toNat < z.toNat := by omega
            simp [this]
          · by_cases hzy : z.toNat < y.toNat
            · simp [hxy, hyz, hzy] at hbc
            · have hyzeq : y.toNat = z.toNat := by omega
              have : x.toNat < z.toNat := by omega
              simp [this]
        · by_cases hyx : y.toNat < x.toNat
          · simp [hxy, hyx] at hab
          · have hxyeq : x.toNat = y.toNat := by omega
            by_cases hyz : y.toNat < z.toNat
            · have : x.toNat < z.toNat := by omega
              simp [this]
            · by_cases hzy : z.toNat < y.toNat
              · simp [hyz, hzy] at hbc
              · have hyzeq : y.toNat = z.toNat := by omega
                have h1 : ¬ x.toNat < z.toNat := by omega
                have h2 : ¬ z.toNat < x.toNat := by omega
                simp only [hxy, hyx, if_false] at hab
                simp only [hyz, hzy, if_false] at hbc
                simp only [h1, h2, if_false]
                exact ih ys zs hab hbc

theorem strLe_total (a b : String) : strLe a b = true ∨ strLe b a = true :=
  charListLe_total a.data b.data

theorem strLe_trans {a b c : String} (hab : strLe a b = true)
    (hbc : strLe b c = true) : strLe a c = true :=
  charListLe_trans a.data b.data c.data hab hbc

/-! ### Sorting lemmas -/

theorem perm_insertAscBy (key : α → String) (a : α) (l : List α) :
    (insertAscBy key a l).Perm (a :: l) := by
  induction l with
  | nil => exact List.Perm.refl _
  | cons b bs ih =>
    simp only [insertAscBy]
    by_cases h : strLe (key a) (key b) = true
    · simp [h]
    · simp only [h, if_false, Bool.false_eq_true]
      exact (ih.cons b).trans (List.Perm.swap a b bs)

theorem perm_sortAscBy (key : α → String) (l : List α) :
    (sortAscBy key l).Perm l := by
  induction l with
  | nil => exact List.Perm.refl _
  | cons a rest ih =>
    exact (perm_insertAscBy key a (sortAscBy key rest)).trans (ih.cons a)

theorem mem_sortAscBy (key : α → String) (l : List α) (x : α) :
    x ∈ sortAscBy key l ↔ x ∈ l :=
  (perm_sortAscBy key l).mem_iff

theorem pairwise_insertAscBy (key : α → String) (a : α) (l : List α)
    (h : l.Pairwise (fun x y => strLe (key x) (key y) = true)) :
    (insertAscBy key a l).Pairwise (fun x y => strLe (key x) (key y) = true) := by
  induction l with
  | nil => simp [insertAscBy]
  | cons b bs ih =>
    simp only [insertAscBy]
    by_cases hab : strLe (key a) (key b) = true
    · simp only [hab, if_true]
      refine List.Pairwise.cons ?_ h
      intro y hy
      rcases List.mem_cons.mp hy with rfl | hy
      · exact hab
      · rcases List.pairwise_cons.mp h with ⟨hb, _⟩
        exact strLe_trans hab (hb y hy)
    · simp only [hab, if_false, Bool.false_eq_true]
      rcases List.pairwise_cons.mp h with ⟨hb, hbs⟩
      refine List.Pairwise.cons ?_ (ih hbs)
      intro y hy
      have hy' : y ∈ a :: bs := (perm_insertAscBy key a bs).mem_iff.mp hy
      rcases List.mem_cons.mp hy' with rfl | hy'
      · rcases strLe_total (key y) (key b) with h1 | h1
        · exact absurd h1 hab
        · exact h1
      · exact hb y hy'

theorem pairwise_sortAscBy (key : α → String) (l : List α) :
    (sortAscBy key l).Pairwise (fun x y => strLe (key x) (key y) = true) := by
  induction l with
  | nil => simp [sortAscBy]
  | cons a rest ih => exact pairwise_insertAscBy key a _ ih

theorem perm_insertDescBy (key : α → String) (a : α) (l : List α) :
    (insertDescBy key a l).Perm (a :: l) := by
  induction l with
  | nil => exact List.Perm.refl _
  | cons b bs ih =>
    simp only [insertDescBy]
    by_cases h : strLe (key b) (key a) = true
    · simp [h]
    · simp only [h, if_false, Bool.false_eq_true]
      exact (ih.cons b).trans (List.Perm.swap a b bs)

theorem perm_sortDescBy (key : α → String) (l : List α) :
    (sortDescBy key l).Perm l := by
  induction l with
  | nil => exact List.Perm.refl _
  | cons a rest ih =>
    exact (perm_insertDescBy key a (sortDescBy key rest)).trans (ih.cons a)

/-! ### Column-shaping lemmas -/

theorem fillColumns_ok (ns : List NoteRow) (c : Columns)
    (h : ∀ n ∈ ns, validColumnName n.columnName) :
    fillColumns c ns = .ok ⟨c.colStart ++ (columnsSpec ns).colStart,
                            c.colStop ++ (columnsSpec ns).colStop,
                            c.colContinue ++ (columnsSpec ns).colContinue⟩ := by
  induction ns generalizing c with
  | nil => simp [fillColumns, columnsSpec]
  | cons n ns ih =>
    have hn := h n (List.mem_cons_self n ns)
    have hns : ∀ m ∈ ns, validColumnName m.columnName :=
      fun m hm => h m (List.mem_cons_of_mem n hm)
    rcases hn with hs | hs | hs <;>
      simp only [fillColumns, pushNote, hs, columnsSpec, List.filter_cons] <;>
      simp only [ih _ hns, columnsSpec] <;>
      simp [List.append_assoc]

theorem shapeColumns_ok (ns : List NoteRow)
    (h : ∀ n ∈ ns, validColumnName n.columnName) :
    shapeColumns ns = .ok (columnsSpec ns) := by
  simpa [shapeColumns, emptyColumns] using fillColumns_ok ns emptyColumns h

theorem shapeBoard_ok (db : DB) (b : BoardRow)
    (h : ∀ n ∈ db.notes, validColumnName n.columnName) :
    shapeBoard db b =
      .ok ⟨b, columnsSpec (sortAscBy NoteRow.createdAt (notesOf db b.id))⟩ := by
  have hv : ∀ n ∈ sortAscBy NoteRow.createdAt (notesOf db b.id),
      validColumnName n.columnName := by
    intro n hn
    have : n ∈ notesOf db b.id := (mem_sortAscBy _ _ n).mp hn
    exact h n (List.mem_of_mem_filter this)
  simp [shapeBoard, shapeColumns_ok _ hv]

theorem listBoardsAux_ok (db : DB) (bs : List BoardRow)
    (h : ∀ n ∈ db.notes, validColumnName n.columnName) :
    listBoardsAux db bs =
      .ok (bs.map (fun b =>
        ⟨b, columnsSpec (sortAscBy NoteRow.createdAt (notesOf db b.id))⟩)) := by
  induction bs with
  | nil => simp [listBoardsAux]
  | cons b bs ih => simp [listBoardsAux, shapeBoard_ok db b h, ih]

/-! ### Pathname lemmas -/

theorem splitOnChar_ne_nil (sep : Char) (cs : List Char) :
    splitOnChar sep cs ≠ [] := by
  cases cs with
  | nil => simp [splitOnChar]
  | cons c rest =>
    simp only [splitOnChar]
    by_cases h : c = sep
    · simp [h]
    · simp only [h, if_false]
      cases splitOnChar sep rest with
      | nil => simp
      | cons g gs => simp

theorem unsplit_splitOnChar (sep : Char) (cs : List Char) :
    unsplit sep (splitOnChar sep cs) = cs := by
  induction cs with
  | nil => rfl
  | cons c rest ih =>
    simp only [splitOnChar]
    by_cases h : c = sep
    · subst h
      simp only [if_pos rfl]
      cases hr : splitOnChar c rest with
      | nil => exact absurd hr (splitOnChar_ne_nil _ _)
      | cons g gs =>
        rw [hr] at ih
        simp [unsplit, ih]
    · simp only [h, if_false]
      cases hr : splitOnChar sep rest with
      | nil => exact absurd hr (splitOnChar_ne_nil _ _)
      | cons g gs =>
        rw [hr] at ih
        cases gs with
        | nil =>
          simp only [unsplit] at ih ⊢
          simp [ih]
        | cons g2 gs2 =>
          simp only [unsplit] at ih ⊢
          simp [ih]

theorem matchBoardsId_eq {p bid : String} (h : matchBoardsId p = some bid) :
    splitSlash p = ["", "boards", bid] ∧ bid ≠ "" := by
  unfold matchBoardsId at h
  split at h
  next b heq =>
    by_cases hb : b == ""
    · simp [hb] at h
    · simp only [hb, Bool.false_eq_true, if_false, Option.some.injEq] at h
      subst h
      exact ⟨heq, by simpa using hb⟩
  next => simp at h

theorem matchBoardsNotes_eq {p bid : String} (h : matchBoardsNotes p = some bid) :
    splitSlash p = ["", "boards", bid, "notes"] ∧ bid ≠ "" := by
  unfold matchBoardsNotes at h
  split at h
  next b heq =>
    by_cases hb : b == ""
    · simp [hb] at h
    · simp only [hb, Bool.false_eq_true, if_false, Option.some.injEq] at h
      subst h
      exact ⟨heq, by simpa using hb⟩
  next => simp at h

theorem matchBoardsNotesId_eq {p : String} {pr : String × String}
    (h : matchBoardsNotesId p = some pr) :
    splitSlash p = ["", "boards", pr.fst, "notes", pr.snd] ∧
      pr.fst ≠ "" ∧ pr.snd ≠ "" := by
  unfold matchBoardsNotesId at h
  split at h
  next b nid heq =>
    by_cases hb : b == "" || nid == ""
    · simp [hb] at h
    · simp only [hb, Bool.false_eq_true, if_false, Option.some.injEq] at h
      subst h
      simp only [Bool.or_eq_false_iff] at hb
      refine ⟨heq, ?_, ?_⟩
      · simpa using And.left (by simpa using hb : (b == "") = false ∧ (nid == "") = false)
      · simpa using And.right (by simpa using hb : (b == "") = false ∧ (nid == "") = false)
  next => simp at h

/-- Recover the character data of a pathname from its split. -/
theorem data_of_splitSlash {p : String} {parts : List String}
    (h : splitSlash p = parts) :
    p.data = unsplit '/' (parts.map String.data) := by
  have h2 : splitOnChar '/' p.data = parts.map String.data := by
    have hcg := congrArg (List.map String.data) h
    have hmk : ∀ cs : List Char, (String.mk cs).data = cs := fun _ => rfl
    simpa [splitSlash, List.map_map, Function.comp_def, hmk, List.map_id] using hcg
  have h3 := unsplit_splitOnChar '/' p.data
  rw [h2] at h3
  exact h3.symm

theorem startsWithBoards_of_matchBoardsId {p bid : String}
    (h : matchBoardsId p = some bid) : pathStartsWithBoards p = true := by
  obtain ⟨hsplit, -⟩ := matchBoardsId_eq h
  have hdata := data_of_splitSlash hsplit
  simp only [List.map_cons, List.map_nil, unsplit, List.nil_append] at hdata
  rw [pathStartsWithBoards, hdata]
  rfl

theorem startsWithBoards_of_matchBoardsNotesId {p : String} {pr : String × String}
    (h : matchBoardsNotesId p = some pr) : pathStartsWithBoards p = true := by
  obtain ⟨hsplit, -, -⟩ := matchBoardsNotesId_eq h
  have hdata := data_of_splitSlash hsplit
  simp only [List.map_cons, List.map_nil, unsplit, List.nil_append] at hdata
  rw [pathStartsWithBoards, hdata]
  rfl

theorem pathSeg2_of_matchBoardsId {p bid : String}
    (h : matchBoardsId p = some bid) : pathSeg2 p = bid := by
  obtain ⟨hsplit, -⟩ := matchBoardsId_eq h
  simp [pathSeg2, hsplit]

theorem pathSeg2_of_matchBoardsNotesId {p : String} {pr : String × String}
    (h : matchBoardsNotesId p = some pr) : pathSeg2 p = pr.fst := by
  obtain ⟨hsplit, -, -⟩ := matchBoardsNotesId_eq h
  simp [pathSeg2, hsplit]

/-! ### Dispatch lemmas: which branch of the `if` chain fires -/

theorem matchBoardsId_of_notesId {p : String} {pr : String × String}
    (h : matchBoardsNotesId p = some pr) : matchBoardsId p = none := by
  obtain ⟨hsplit, -, -⟩ := matchBoardsNotesId_eq h
  unfold matchBoardsId
  rw [hsplit]
  rfl

theorem handle_register {req : Request} (hm : req.method = .POST)
    (hp : req.pathname = "/register") (db : DB) (now now2 freshId : String) :
    handle db req now now2 freshId = handleRegister db req.body now freshId := by
  simp [handle, hm, hp]

theorem handle_login {req : Request} (hm : req.method = .POST)
    (hp : req.pathname = "/login") (db : DB) (now now2 freshId : String) :
    handle db req now now2 freshId = handleLogin db req.body := by
  simp [handle, hm, hp]

theorem handle_getBoards {req : Request} (hm : req.method = .GET)
    (hp : req.pathname = "/boards") (db : DB) (now now2 freshId : String) :
    handle db req now now2 freshId = handleGetBoards db req.userIdQuery := by
  simp [handle, hm, hp]

theorem handle_putBoards {req : Request} (hm : req.method = .PUT)
    (hp : pathStartsWithBoards req.pathname = true)
    (db : DB) (now now2 freshId : String) :
    handle db req now now2 freshId =
      handleUpdateBoard db req.pathname req.body now := by
  simp [handle, hm, hp]

theorem handle_deleteBoard {req : Request} {bid : String} (hm : req.method = .DELETE)
    (hp : matchBoardsId req.pathname = some bid)
    (db : DB) (now now2 freshId : String) :
    handle db req now now2 freshId = handleDeleteBoard db bid := by
  simp [handle, hm, hp]

theorem handle_createNote {req : Request} {bid : String} (hm : req.method = .POST)
    (hp : matchBoardsNotes req.pathname = some bid)
    (db : DB) (now now2 freshId : String) :
    handle db req now now2 freshId =
      handleCreateNote db bid req.body now now2 freshId := by
  obtain ⟨hsplit, -⟩ := matchBoardsNotes_eq hp
  have h1 : (req.pathname == "/register") = false := by
    by_cases hb : req.pathname = "/register"
    · rw [hb] at hsplit
      have hx : splitSlash "/register" = ["", "register"] := by decide
      rw [hx] at hsplit
      have hlen := congrArg List.length hsplit
      simp at hlen
    · exact beq_eq_false_iff_ne.mpr hb
  have h2 : (req.pathname == "/login") = false := by
    by_cases hb : req.pathname = "/login"
    · rw [hb] at hsplit
      have hx : splitSlash "/login" = ["", "login"] := by decide
      rw [hx] at hsplit
      have hlen := congrArg List.length hsplit
      simp at hlen
    · exact beq_eq_false_iff_ne.mpr hb
  have h3 : (req.pathname == "/boards") = false := by
    by_cases hb : req.pathname = "/boards"
    · rw [hb] at hsplit
      have hx : splitSlash "/boards" = ["", "boards"] := by decide
      rw [hx] at hsplit
      have hlen := congrArg List.length hsplit
      simp at hlen
    · exact beq_eq_false_iff_ne.mpr hb
  simp [handle, hm, hp, h1, h2, h3]

theorem handle_deleteNote {req : Request} {pr : String × String}
    (hm : req.method = .DELETE) (hp : matchBoardsNotesId req.pathname = some pr)
    (db : DB) (now now2 freshId : String) :
    handle db req now now2 freshId = handleDeleteNote db pr.fst pr.snd now := by
  have hnone := matchBoardsId_of_notesId hp
  simp [handle, hm, hp, hnone]

/-! ### Claim C2 -/

/-- C2: the claimed invariant "every stored Note's columnName is one of
Start/Stop/Continue" is violated by the code: `POST /boards/b1/notes`
with `columnName: "Bogus"` succeeds with status 200 and stores the bogus
note, after which `GET /boards?userId=u1` fails with status 500 in the
column-grouping loop. -/
theorem noteColumnName_unvalidated :
    (handle dbOneBoard bogusNoteReq
      "2024-01-02 09:00:00" "2024-01-02 09:00:01" "n9").status = 200 ∧
    ((⟨"n9", "b1", "Bogus", "hi", "2024-01-02 09:00:00"⟩ : NoteRow) ∈
      (handle dbOneBoard bogusNoteReq
        "2024-01-02 09:00:00" "2024-01-02 09:00:01" "n9").db.notes) ∧
    ¬ validColumnName "Bogus" ∧
    (handle (handle dbOneBoard bogusNoteReq
        "2024-01-02 09:00:00" "2024-01-02 09:00:01" "n9").db
      listBoardsReq "2024-01-02 10:00:00" "2024-01-02 10:00:01" "f1").status = 500 := by
  decide

/-! ### Claim C6 -/

/-- C6: a routine note-update request (`PUT /boards/b1/notes/n1` with a
`text` field) is captured by the `startsWith("/boards/")` board-update
branch, binds NULL for the missing `title`, and fails with 500 leaving
the store (in particular the parent board's `updatedAt`) unchanged — so a
note update never succeeds, contradicting the claim that successful note
updates advance the parent board's `updatedAt`.  The dedicated
note-update handler would have returned 200 and bumped `updatedAt`, but
it is unreachable. -/
theorem putNote_routed_to_board_handler :
    handle dbWithNote putNoteReq "2024-01-02 09:00:00" "2024-01-02 09:00:01" "f1" =
      ⟨dbWithNote, 500, .errorMsg "Server Error"⟩ ∧
    (handleUpdateNote dbWithNote "b1" "n1" putNoteReq.body
        "2024-01-02 09:00:00").status = 200 ∧
    (handleUpdateNote dbWithNote "b1" "n1" putNoteReq.body
        "2024-01-02 09:00:00").db.boards =
      [⟨"b1", "u1", "Sprint 1", "2024-01-01 00:00:01", "2024-01-02 09:00:00"⟩] := by
  decide

/-! ### Claim C10 -/

/-- C10: `PUT /boards/:id/notes/:noteId` does not "respond 200
regardless": for an absent note id it is captured by the board-update
branch and responds 500 (NULL `title` bind on the existing path board),
writing nothing.  The DELETE half of the claim does hold: deleting an
absent note responds 200 and writes the path board's `updatedAt`. -/
theorem putNote_not_200_regardless :
    (handle dbOneBoard putAbsentNoteReq
      "2024-01-03 00:00:00" "2024-01-03 00:00:01" "f1").status = 500 ∧
    handle dbOneBoard delAbsentNoteReq
        "2024-01-03 00:00:00" "2024-01-03 00:00:01" "f1" =
      ⟨⟨dbOneBoard.users,
        [⟨"b1", "u1", "Sprint 1", "2024-01-01 00:00:01", "2024-01-03 00:00:00"⟩],
        []⟩, 200, .okTrue⟩ := by
  decide

/-! ### Claim C1 -/

/-- C1 fails as stated: a malformed JSON body on `POST /register` yields
status 500 (the reject from `parseJSONBody` reaches the outer catch),
not 400. -/
theorem malformedJson_counterexample :
    (handle emptyDB ⟨.POST, "/register", none, .malformed⟩
      "2024-01-01 00:00:00" "2024-01-01 00:00:00" "u9").status = 500 ∧
    (handle emptyDB ⟨.POST, "/register", none, .malformed⟩
      "2024-01-01 00:00:00" "2024-01-01 00:00:00" "u9").status ≠ 400 := by
  decide

/-- C1 (amended): for every POST or PUT request whose body is present but
not valid JSON, the server responds with a JSON body containing an
`error` field and status 500 (or 404 when no route matches, in which
case the body is never read), the store is unchanged, and the process
does not crash (a response is always produced). -/
theorem malformedJson_no_crash (db : DB) (req : Request) (now now2 f : String)
    (hm : req.method = .POST ∨ req.method = .PUT) (hb : req.body = .malformed) :
    ∃ msg, handle db req now now2 f = ⟨db, 500, .errorMsg msg⟩ ∨
           handle db req now now2 f = ⟨db, 404, .errorMsg msg⟩ := by
  obtain ⟨m, p, uq, b⟩ := req
  simp only at hb
  subst hb
  rcases hm with hm | hm <;> simp only at hm <;> subst hm
  · simp only [handle,
      show (Method.POST == Method.OPTIONS) = false from rfl,
      show (Method.POST == Method.POST) = true from rfl,
      show (Method.POST == Method.GET) = false from rfl,
      show (Method.POST == Method.PUT) = false from rfl,
      show (Method.POST == Method.DELETE) = false from rfl,
      Bool.and_true, Bool.and_false, Bool.false_eq_true, if_false]
    split
    · exact ⟨"Server Error", Or.inl rfl⟩
    split
    · exact ⟨"Server Error", Or.inl rfl⟩
    split
    · exact ⟨"Server Error", Or.inl rfl⟩
    split
    · exact ⟨"Server Error", Or.inl rfl⟩
    exact ⟨"Not Found", Or.inr rfl⟩
  · simp only [handle,
      show (Method.PUT == Method.OPTIONS) = false from rfl,
      show (Method.PUT == Method.POST) = false from rfl,
      show (Method.PUT == Method.GET) = false from rfl,
      show (Method.PUT == Method.PUT) = true from rfl,
      show (Method.PUT == Method.DELETE) = false from rfl,
      Bool.and_true, Bool.and_false, Bool.false_eq_true, if_false]
    split
    · exact ⟨"Server Error", Or.inl rfl⟩
    split
    · exact ⟨"Server Error", Or.inl rfl⟩
    exact ⟨"Not Found", Or.inr rfl⟩

/-- Witness for `malformedJson_no_crash` at a concrete request. -/
theorem malformedJson_no_crash_witness :
    ((Request.mk .POST "/register" none .malformed).method = .POST ∨
      (Request.mk .POST "/register" none .malformed).method = .PUT) ∧
    (Request.mk .POST "/register" none .malformed).body = .malformed ∧
    (∃ msg,
      handle emptyDB ⟨.POST, "/register", none, .malformed⟩
          "2024-01-01 00:00:00" "2024-01-01 00:00:00" "u9" =
        ⟨emptyDB, 500, .errorMsg msg⟩ ∨
      handle emptyDB ⟨.POST, "/register", none, .malformed⟩
          "2024-01-01 00:00:00" "2024-01-01 00:00:00" "u9" =
        ⟨emptyDB, 404, .errorMsg msg⟩) :=
  ⟨Or.inl rfl, rfl,
    malformedJson_no_crash emptyDB ⟨.POST, "/register", none, .malformed⟩
      "2024-01-01 00:00:00" "2024-01-01 00:00:00" "u9" (Or.inl rfl) rfl⟩

/-! ### Claim C3 -/

/-- C3 fails as stated: `DELETE /boards/b1` on an empty store responds
200, not 404. -/
theorem noNotFound_counterexample :
    (handle emptyDB ⟨.DELETE, "/boards/b1", none, .empty⟩
      "2024-01-01 00:00:00" "2024-01-01 00:00:00" "f1").status = 200 ∧
    (handle emptyDB ⟨.DELETE, "/boards/b1", none, .empty⟩
      "2024-01-01 00:00:00" "2024-01-01 00:00:00" "f1").status ≠ 404 := by
  decide

/-- C3 (amended): the board routes perform no existence check.  For a
board id absent from the store, `PUT /boards/:id` (with a parseable
body) and `DELETE /boards/:id` respond 200, and `POST /boards/:id/notes`
(with a well-formed body) responds 500 via the foreign-key constraint;
none responds 404. -/
theorem boards_no_existence_check (db : DB) (req1 req2 req3 : Request)
    (bid : String) (now now2 f c t : String)
    (habs : ∀ b ∈ db.boards, b.id ≠ bid)
    (h1 : req1.method = .PUT) (hp1 : matchBoardsId req1.pathname = some bid)
    (hb1 : req1.body ≠ .malformed)
    (h2 : req2.method = .DELETE) (hp2 : matchBoardsId req2.pathname = some bid)
    (h3 : req3.method = .POST) (hp3 : matchBoardsNotes req3.pathname = some bid)
    (hb3 : req3.body = .jsonObj [("columnName", .str c), ("text", .str t)])
    (hc : c ≠ "") (ht : t ≠ "") :
    (handle db req1 now now2 f).status = 200 ∧
    (handle db req2 now now2 f).status = 200 ∧
    (handle db req3 now now2 f).status = 500 := by
  have hany : (db.boards.any fun b => b.id == bid) = false := by
    rw [List.any_eq_false]
    intro b hbmem
    simpa using habs b hbmem
  refine ⟨?_, ?_, ?_⟩
  · rw [handle_putBoards h1 (startsWithBoards_of_matchBoardsId hp1)]
    simp only [handleUpdateBoard, pathSeg2_of_matchBoardsId hp1]
    cases hb : req1.body with
    | malformed => exact absurd hb hb1
    | empty => simp [parseJSONBody, updateBoardTitle, hany]
    | jsonObj fs => simp [parseJSONBody, updateBoardTitle, hany]
  · rw [handle_deleteBoard h2 hp2]
    rfl
  · rw [handle_createNote h3 hp3, hb3]
    have hcol : lookupField [("columnName", JVal.str c), ("text", JVal.str t)]
        "columnName" = some (.str c) := rfl
    have htxt : lookupField [("columnName", JVal.str c), ("text", JVal.str t)]
        "text" = some (.str t) := rfl
    have hbid : (bid == "") = false :=
      beq_eq_false_iff_ne.mpr (matchBoardsNotes_eq hp3).2
    have hcb : (c == "") = false := beq_eq_false_iff_ne.mpr hc
    have htb : (t == "") = false := beq_eq_false_iff_ne.mpr ht
    simp only [handleCreateNote, parseJSONBody, hcol, htxt, truthyOpt,
      JVal.truthy, hbid, hcb, htb, Bool.not_false, Bool.not_true,
      Bool.or_false, Bool.false_or, Bool.false_eq_true, if_false, bindVal]
    by_cases hpk : (db.notes.any fun n => n.id == f) = true
    · simp [insertNote, hpk, serverError]
    · simp only [Bool.not_eq_true] at hpk
      simp [insertNote, hpk, hany, serverError]

/-- Witness for `boards_no_existence_check` at a concrete store and
concrete requests naming the absent board id `zzz`. -/
theorem boards_no_existence_check_witness :
    (∀ b ∈ dbOneBoard.boards, b.id ≠ "zzz") ∧
    (("Start" : String) ≠ "") ∧ (("x" : String) ≠ "") ∧
    ((handle dbOneBoard ⟨.PUT, "/boards/zzz", none, .empty⟩
        "2024-01-05 00:00:00" "2024-01-05 00:00:00" "f1").status = 200 ∧
     (handle dbOneBoard ⟨.DELETE, "/boards/zzz", none, .empty⟩
        "2024-01-05 00:00:00" "2024-01-05 00:00:00" "f1").status = 200 ∧
     (handle dbOneBoard ⟨.POST, "/boards/zzz/notes", none,
          .jsonObj [("columnName", .str "Start"), ("text", .str "x")]⟩
        "2024-01-05 00:00:00" "2024-01-05 00:00:00" "f1").status = 500) :=
  ⟨by decide, by decide, by decide,
    boards_no_existence_check dbOneBoard
      ⟨.PUT, "/boards/zzz", none, .empty⟩
      ⟨.DELETE, "/boards/zzz", none, .empty⟩
      ⟨.POST, "/boards/zzz/notes", none,
        .jsonObj [("columnName", .str "Start"), ("text", .str "x")]⟩
      "zzz" "2024-01-05 00:00:00" "2024-01-05 00:00:00" "f1" "Start" "x"
      (by decide) rfl (by decide) (by decide) rfl (by decide) rfl (by decide)
      rfl (by decide) (by decide)⟩

/-! ### Claim C5 -/

/-- C5: after a successful `DELETE /boards/:id` the store contains
neither the board nor any note of it; the result state is the note
deletion followed by the board deletion, and already after the first
statement (before the board row is removed) no note of the board
remains. -/
theorem deleteBoard_cascades (db : DB) (req : Request) (bid : String)
    (now now2 f : String)
    (hm : req.method = .DELETE) (hp : matchBoardsId req.pathname = some bid) :
    handle db req now now2 f =
      ⟨deleteBoardRow (deleteNotesOfBoard db bid) bid, 200, .okTrue⟩ ∧
    (∀ b ∈ (handle db req now now2 f).db.boards, b.id ≠ bid) ∧
    (∀ n ∈ (handle db req now now2 f).db.notes, n.boardId ≠ bid) ∧
    (∀ n ∈ (deleteNotesOfBoard db bid).notes, n.boardId ≠ bid) := by
  have hh : handle db req now now2 f =
      ⟨deleteBoardRow (deleteNotesOfBoard db bid) bid, 200, .okTrue⟩ := by
    rw [handle_deleteBoard hm hp]
    rfl
  refine ⟨hh, ?_, ?_, ?_⟩
  · rw [hh]
    intro b hb
    simp only [deleteBoardRow, deleteNotesOfBoard, List.mem_filter,
      Bool.not_eq_eq_eq_not, Bool.not_true, beq_eq_false_iff_ne] at hb
    exact hb.2
  · rw [hh]
    intro n hn
    simp only [deleteBoardRow, deleteNotesOfBoard, List.mem_filter,
      Bool.not_eq_eq_eq_not, Bool.not_true, beq_eq_false_iff_ne] at hn
    exact hn.2
  · intro n hn
    simp only [deleteNotesOfBoard, List.mem_filter,
      Bool.not_eq_eq_eq_not, Bool.not_true, beq_eq_false_iff_ne] at hn
    exact hn.2

/-- Witness for `deleteBoard_cascades`: deleting board `b1` from the
store that holds one of its notes. -/
theorem deleteBoard_cascades_witness :
    ((Request.mk .DELETE "/boards/b1" none .empty).method = .DELETE) ∧
    (matchBoardsId "/boards/b1" = some "b1") ∧
    (handle dbWithNote ⟨.DELETE, "/boards/b1", none, .empty⟩
        "2024-01-06 00:00:00" "2024-01-06 00:00:00" "f1" =
      ⟨deleteBoardRow (deleteNotesOfBoard dbWithNote "b1") "b1", 200, .okTrue⟩ ∧
     (∀ b ∈ (handle dbWithNote ⟨.DELETE, "/boards/b1", none, .empty⟩
        "2024-01-06 00:00:00" "2024-01-06 00:00:00" "f1").db.boards, b.id ≠ "b1") ∧
     (∀ n ∈ (handle dbWithNote ⟨.DELETE, "/boards/b1", none, .empty⟩
        "2024-01-06 00:00:00" "2024-01-06 00:00:00" "f1").db.notes, n.boardId ≠ "b1") ∧
     (∀ n ∈ (deleteNotesOfBoard dbWithNote "b1").notes, n.boardId ≠ "b1")) :=
  ⟨rfl, by decide,
    deleteBoard_cascades dbWithNote ⟨.DELETE, "/boards/b1", none, .empty⟩ "b1"
      "2024-01-06 00:00:00" "2024-01-06 00:00:00" "f1" rfl (by decide)⟩

/-! ### Register/login inversion -/

/-- Everything a successful (status 200) registration implies. -/
theorem register_ok_inversion {db db1 : DB} {e p : String} {r : RespBody}
    {n1 n1' f : String}
    (h1 : handle db (regReq e p) n1 n1' f = ⟨db1, 200, r⟩) :
    e ≠ "" ∧ p ≠ "" ∧
    db.users.find? (fun u => u.email == e) = none ∧
    (db.users.any fun u => u.id == f) = false ∧
    (db.users.any fun u => u.email == e) = false ∧
    db1 = { db with users := db.users ++ [⟨f, e, p, n1⟩] } ∧
    r = .registerSummary f (.str e) n1 := by
  rw [handle_register rfl rfl] at h1
  have hle : lookupField [("email", JVal.str e), ("password", JVal.str p)]
      "email" = some (.str e) := rfl
  have hlp : lookupField [("email", JVal.str e), ("password", JVal.str p)]
      "password" = some (.str p) := rfl
  simp only [regReq, handleRegister, parseJSONBody, hle, hlp, truthyOpt,
    JVal.truthy, Bool.not_not, bindVal, findUserByEmail] at h1
  by_cases he : e = ""
  · simp [he] at h1
  by_cases hp : p = ""
  · simp [hp] at h1
  have heb : (e == "") = false := beq_eq_false_iff_ne.mpr he
  have hpb : (p == "") = false := beq_eq_false_iff_ne.mpr hp
  simp only [heb, hpb, Bool.or_self, Bool.false_eq_true, if_false] at h1
  cases hfind : db.users.find? (fun u => u.email == e) with
  | some u => simp [hfind] at h1
  | none =>
    simp only [hfind, insertUser] at h1
    by_cases hid : (db.users.any fun u => u.id == f) = true
    · simp [hid, serverError] at h1
    have hidf : (db.users.any fun u => u.id == f) = false := by
      simpa using hid
    by_cases hem : (db.users.any fun u => u.email == e) = true
    · simp [hidf, hem, serverError] at h1
    have hemf : (db.users.any fun u => u.email == e) = false := by
      simpa using hem
    simp only [hidf, hemf, Bool.false_eq_true, if_false, Option.getD,
      HResult.mk.injEq] at h1
    obtain ⟨hdbeq, -, hreq⟩ := h1
    exact ⟨he, hp, rfl, hidf, hemf, hdbeq.symm, hreq.symm⟩

/-! ### Claim C7 -/

/-- C7: after a successful registration of an email, a second
registration attempt with the same email (and a nonempty password)
yields 409 and leaves the store unchanged (in particular no user is
inserted), and uniqueness of emails in the store is preserved. -/
theorem register_duplicate_409 (db db1 : DB) (e p p2 : String) (r : RespBody)
    (n1 n1' f n2 n2' f' : String)
    (h1 : handle db (regReq e p) n1 n1' f = ⟨db1, 200, r⟩)
    (hp2 : p2 ≠ "") (hu : emailsUnique db) :
    handle db1 (regReq e p2) n2 n2' f' =
      ⟨db1, 409, .errorMsg "Email already registered"⟩ ∧
    emailsUnique db1 := by
  obtain ⟨he, hp, hfind, hid, hem, hdb1, hr⟩ := register_ok_inversion h1
  have hfind2a : (db.users ++ [(⟨f, e, p, n1⟩ : UserRow)]).find?
      (fun u => u.email == e) = some ⟨f, e, p, n1⟩ := by
    rw [List.find?_append, hfind]
    simp [List.find?]
  have hfind2 : db1.users.find? (fun u => u.email == e) =
      some ⟨f, e, p, n1⟩ := by
    rw [hdb1]
    exact hfind2a
  constructor
  · rw [handle_register rfl rfl]
    have hle : lookupField [("email", JVal.str e), ("password", JVal.str p2)]
        "email" = some (.str e) := rfl
    have hlp : lookupField [("email", JVal.str e), ("password", JVal.str p2)]
        "password" = some (.str p2) := rfl
    simp only [regReq, handleRegister, parseJSONBody, hle, hlp, truthyOpt,
      JVal.truthy, Bool.not_not, bindVal, findUserByEmail,
      beq_eq_false_iff_ne.mpr he, beq_eq_false_iff_ne.mpr hp2,
      Bool.or_self, Bool.false_eq_true, if_false, hfind2]
  · have hpw : (db.users ++ [(⟨f, e, p, n1⟩ : UserRow)]).Pairwise
        (fun u v => u.email ≠ v.email) := by
      rw [List.pairwise_append]
      refine ⟨hu, by simp, ?_⟩
      intro a ha b hb
      simp only [List.mem_singleton] at hb
      subst hb
      have := List.find?_eq_none.mp hfind a ha
      simpa using this
    rw [hdb1]
    exact hpw

/-- Witness for `register_duplicate_409`: registering `ann@example.com`
twice on the empty store. -/
theorem register_duplicate_409_witness :
    (handle emptyDB (regReq "ann@example.com" "pw") "2024-01-01 00:00:00"
        "2024-01-01 00:00:00" "u1" =
      ⟨⟨[⟨"u1", "ann@example.com", "pw", "2024-01-01 00:00:00"⟩], [], []⟩, 200,
        .registerSummary "u1" (.str "ann@example.com") "2024-01-01 00:00:00"⟩) ∧
    (("pw2" : String) ≠ "") ∧ emailsUnique emptyDB ∧
    (handle ⟨[⟨"u1", "ann@example.com", "pw", "2024-01-01 00:00:00"⟩], [], []⟩
        (regReq "ann@example.com" "pw2") "2024-01-02 00:00:00"
        "2024-01-02 00:00:00" "u2" =
      ⟨⟨[⟨"u1", "ann@example.com", "pw", "2024-01-01 00:00:00"⟩], [], []⟩, 409,
        .errorMsg "Email already registered"⟩ ∧
     emailsUnique ⟨[⟨"u1", "ann@example.com", "pw", "2024-01-01 00:00:00"⟩], [], []⟩) :=
  ⟨by decide, by decide, List.Pairwise.nil,
    register_duplicate_409 emptyDB
      ⟨[⟨"u1", "ann@example.com", "pw", "2024-01-01 00:00:00"⟩], [], []⟩
      "ann@example.com" "pw" "pw2"
      (.registerSummary "u1" (.str "ann@example.com") "2024-01-01 00:00:00")
      "2024-01-01 00:00:00" "2024-01-01 00:00:00" "u1"
      "2024-01-02 00:00:00" "2024-01-02 00:00:00" "u2"
      (by decide) (by decide) List.Pairwise.nil⟩

/-! ### Claim C8 -/

/-- C8: logging in with exactly the registered email and password returns
status 200 and the id that registration returned; logging in with a pair
matching no stored user returns 401. -/
theorem login_after_register (db db1 : DB) (e p : String) (r : RespBody)
    (n1 n1' f n2 n2' f' : String)
    (h1 : handle db (regReq e p) n1 n1' f = ⟨db1, 200, r⟩) :
    r = .registerSummary f (.str e) n1 ∧
    handle db1 (loginReq e p) n2 n2' f' = ⟨db1, 200, .loginSummary f e n1⟩ ∧
    (∀ (db' : DB) (e' p' m m' g : String), e' ≠ "" → p' ≠ "" →
      (∀ u ∈ db'.users, ¬(u.email = e' ∧ u.password = p')) →
      handle db' (loginReq e' p') m m' g =
        ⟨db', 401, .errorMsg "Invalid email or password"⟩) := by
  obtain ⟨he, hp, hfind, hid, hem, hdb1, hr⟩ := register_ok_inversion h1
  refine ⟨hr, ?_, ?_⟩
  · rw [handle_login rfl rfl]
    have hle : lookupField [("email", JVal.str e), ("password", JVal.str p)]
        "email" = some (.str e) := rfl
    have hlp : lookupField [("email", JVal.str e), ("password", JVal.str p)]
        "password" = some (.str p) := rfl
    have hfind2a : (db.users ++ [(⟨f, e, p, n1⟩ : UserRow)]).find?
        (fun u => u.email == e && u.password == p) = some ⟨f, e, p, n1⟩ := by
      rw [List.find?_append]
      have hnone : db.users.find?
          (fun u => u.email == e && u.password == p) = none := by
        rw [List.find?_eq_none]
        intro x hx
        have hne := List.find?_eq_none.mp hfind x hx
        simp only [Bool.and_eq_true, beq_iff_eq, not_and]
        intro hx1
        exact absurd (by simp [hx1]) hne
      rw [hnone]
      simp [List.find?]
    have hfind2 : db1.users.find?
        (fun u => u.email == e && u.password == p) = some ⟨f, e, p, n1⟩ := by
      rw [hdb1]
      exact hfind2a
    simp only [loginReq, handleLogin, parseJSONBody, hle, hlp, truthyOpt,
      JVal.truthy, Bool.not_not, bindVal,
      beq_eq_false_iff_ne.mpr he, beq_eq_false_iff_ne.mpr hp,
      Bool.or_self, Bool.false_eq_true, if_false, hfind2]
  · intro db' e' p' m m' g he' hp' hnone
    rw [handle_login rfl rfl]
    have hle : lookupField [("email", JVal.str e'), ("password", JVal.str p')]
        "email" = some (.str e') := rfl
    have hlp : lookupField [("email", JVal.str e'), ("password", JVal.str p')]
        "password" = some (.str p') := rfl
    have hfn : db'.users.find?
        (fun u => u.email == e' && u.password == p') = none := by
      rw [List.find?_eq_none]
      intro x hx
      have := hnone x hx
      simp only [Bool.and_eq_true, beq_iff_eq, not_and]
      intro hx1 hx2
      exact this ⟨hx1, hx2⟩
    simp only [loginReq, handleLogin, parseJSONBody, hle, hlp, truthyOpt,
      JVal.truthy, Bool.not_not, bindVal,
      beq_eq_false_iff_ne.mpr he', beq_eq_false_iff_ne.mpr hp',
      Bool.or_self, Bool.false_eq_true, if_false, hfn]

/-- Witness for `login_after_register`: register then log in. -/
theorem login_after_register_witness :
    (handle emptyDB (regReq "bo@example.com" "s3cret") "2024-02-01 00:00:00"
        "2024-02-01 00:00:00" "u7" =
      ⟨⟨[⟨"u7", "bo@example.com", "s3cret", "2024-02-01 00:00:00"⟩], [], []⟩, 200,
        .registerSummary "u7" (.str "bo@example.com") "2024-02-01 00:00:00"⟩) ∧
    (handle ⟨[⟨"u7", "bo@example.com", "s3cret", "2024-02-01 00:00:00"⟩], [], []⟩
        (loginReq "bo@example.com" "s3cret") "2024-02-02 00:00:00"
        "2024-02-02 00:00:00" "g1" =
      ⟨⟨[⟨"u7", "bo@example.com", "s3cret", "2024-02-01 00:00:00"⟩], [], []⟩, 200,
        .loginSummary "u7" "bo@example.com" "2024-02-01 00:00:00"⟩) :=
  ⟨by decide,
    (login_after_register emptyDB
      ⟨[⟨"u7", "bo@example.com", "s3cret", "2024-02-01 00:00:00"⟩], [], []⟩
      "bo@example.com" "s3cret"
      (.registerSummary "u7" (.str "bo@example.com") "2024-02-01 00:00:00")
      "2024-02-01 00:00:00" "2024-02-01 00:00:00" "u7"
      "2024-02-02 00:00:00" "2024-02-02 00:00:00" "g1" (by decide)).2.1⟩

/-! ### Claim C9 -/

/-- A 200 response from the register handler is always a `registerSummary`. -/
theorem handleRegister_200_body {db db' : DB} {body : RawBody}
    {now f : String} {r : RespBody}
    (h : handleRegister db body now f = ⟨db', 200, r⟩) :
    ∃ em, r = .registerSummary f em now := by
  simp only [handleRegister] at h
  split at h
  · simp [serverError, HResult.mk.injEq] at h
  · split at h
    · simp [HResult.mk.injEq] at h
    · split at h
      · simp [HResult.mk.injEq] at h
      · split at h
        · simp [serverError, HResult.mk.injEq] at h
        · simp only [HResult.mk.injEq] at h
          exact ⟨_, h.2.2.symm⟩

/-- A 200 response from the login handler is always a `loginSummary`. -/
theorem handleLogin_200_body {db db' : DB} {body : RawBody} {r : RespBody}
    (h : handleLogin db body = ⟨db', 200, r⟩) :
    ∃ i em c, r = .loginSummary i em c := by
  simp only [handleLogin] at h
  split at h
  · simp [serverError, HResult.mk.injEq] at h
  · split at h
    · simp [HResult.mk.injEq] at h
    · split at h
      · split at h
        · simp [HResult.mk.injEq] at h
        · simp only [HResult.mk.injEq] at h
          exact ⟨_, _, _, h.2.2.symm⟩
      · simp [HResult.mk.injEq] at h

/-- C9: a successful (status 200) response of `POST /register` or
`POST /login` carries exactly the keys id, email and createdAt — never
the password field. -/
theorem auth_responses_no_password (db : DB) (req : Request)
    (now now2 f : String)
    (hp : req.pathname = "/register" ∨ req.pathname = "/login")
    (hm : req.method = .POST)
    (h200 : (handle db req now now2 f).status = 200) :
    respKeys (handle db req now now2 f).body = ["id", "email", "createdAt"] ∧
    "password" ∉ respKeys (handle db req now now2 f).body := by
  rcases hp with hpth | hpth
  · rw [handle_register hm hpth] at h200 ⊢
    rcases hres : handleRegister db req.body now f with ⟨db', st, r⟩
    rw [hres] at h200
    change st = 200 at h200
    subst h200
    obtain ⟨em, hr⟩ := handleRegister_200_body hres
    subst hr
    refine ⟨rfl, ?_⟩
    show "password" ∉ (["id", "email", "createdAt"] : List String)
    decide
  · rw [handle_login hm hpth] at h200 ⊢
    rcases hres : handleLogin db req.body with ⟨db', st, r⟩
    rw [hres] at h200
    change st = 200 at h200
    subst h200
    obtain ⟨i, em, c, hr⟩ := handleLogin_200_body hres
    subst hr
    refine ⟨rfl, ?_⟩
    show "password" ∉ (["id", "email", "createdAt"] : List String)
    decide

/-- Witness for `auth_responses_no_password`: a successful registration. -/
theorem auth_responses_no_password_witness :
    ((regReq "ann@example.com" "pw").pathname = "/register" ∨
      (regReq "ann@example.com" "pw").pathname = "/login") ∧
    (regReq "ann@example.com" "pw").method = .POST ∧
    (handle emptyDB (regReq "ann@example.com" "pw") "2024-01-01 00:00:00"
      "2024-01-01 00:00:00" "u1").status = 200 ∧
    (respKeys (handle emptyDB (regReq "ann@example.com" "pw")
        "2024-01-01 00:00:00" "2024-01-01 00:00:00" "u1").body =
      ["id", "email", "createdAt"] ∧
     "password" ∉ respKeys (handle emptyDB (regReq "ann@example.com" "pw")
        "2024-01-01 00:00:00" "2024-01-01 00:00:00" "u1").body) :=
  ⟨Or.inl rfl, rfl, by decide,
    auth_responses_no_password emptyDB (regReq "ann@example.com" "pw")
      "2024-01-01 00:00:00" "2024-01-01 00:00:00" "u1" (Or.inl rfl) rfl
      (by decide)⟩

/-! ### Claim C4 -/

/-- A shaped column is (as a multiset) the stored notes of the board in
that column. -/
theorem shaped_column_perm (notes : List NoteRow) (bid cname : String) :
    (((sortAscBy NoteRow.createdAt
        (notes.filter (fun n => n.boardId == bid))).filter
      (fun n => n.columnName == cname)).map shapeNote).Perm
    ((notes.filter
      (fun n => n.columnName == cname && n.boardId == bid)).map shapeNote) := by
  have h1 := (perm_sortAscBy NoteRow.createdAt
      (notes.filter (fun n => n.boardId == bid))).filter
      (fun n => n.columnName == cname)
  have h2 := h1.map shapeNote
  rwa [List.filter_filter] at h2

/-- A shaped column is ordered by `createdAt` ascending. -/
theorem shaped_column_sorted (notes : List NoteRow) (bid cname : String) :
    ((((sortAscBy NoteRow.createdAt
        (notes.filter (fun n => n.boardId == bid))).filter
      (fun n => n.columnName == cname)).map shapeNote)).Pairwise
      (fun x y => strLe x.createdAt y.createdAt = true) := by
  rw [List.pairwise_map]
  exact (pairwise_sortAscBy NoteRow.createdAt _).sublist (List.filter_sublist _)

/-- C4: `GET /boards?userId=q` (on a store whose notes all carry one of
the three fixed column names) returns 200 with exactly the boards whose
`userId` equals `q`; each returned board's columns hold exactly its
stored notes, each appearing under the key equal to its `columnName`,
ordered by `createdAt` ascending within each column. -/
theorem getBoards_partitions (db : DB) (req : Request) (q : String)
    (now now2 f : String)
    (hm : req.method = .GET) (hpth : req.pathname = "/boards")
    (huq : req.userIdQuery = some q) (hq : q ≠ "")
    (hvalid : ∀ n ∈ db.notes, validColumnName n.columnName) :
    ∃ xs, handle db req now now2 f = ⟨db, 200, .boardsList xs⟩ ∧
      (xs.map ShapedBoard.board).Perm
        (db.boards.filter (fun b => b.userId == q)) ∧
      (∀ sb ∈ xs, sb.board.userId = q ∧
        sb.columns.colStart.Perm ((db.notes.filter (fun n =>
          n.columnName == "Start" && n.boardId == sb.board.id)).map shapeNote) ∧
        sb.columns.colStop.Perm ((db.notes.filter (fun n =>
          n.columnName == "Stop" && n.boardId == sb.board.id)).map shapeNote) ∧
        sb.columns.colContinue.Perm ((db.notes.filter (fun n =>
          n.columnName == "Continue" && n.boardId == sb.board.id)).map shapeNote) ∧
        sb.columns.colStart.Pairwise
          (fun x y => strLe x.createdAt y.createdAt = true) ∧
        sb.columns.colStop.Pairwise
          (fun x y => strLe x.createdAt y.createdAt = true) ∧
        sb.columns.colContinue.Pairwise
          (fun x y => strLe x.createdAt y.createdAt = true)) := by
  have hqb : (q == "") = false := beq_eq_false_iff_ne.mpr hq
  rw [handle_getBoards hm hpth, huq]
  simp only [handleGetBoards, hqb, Bool.false_eq_true, if_false, listBoards,
    listBoardsAux_ok db _ hvalid]
  refine ⟨_, rfl, ?_, ?_⟩
  · have hmb : ((sortDescBy BoardRow.createdAt
        (db.boards.filter (fun b => b.userId == q))).map
          (fun b => (⟨b, columnsSpec (sortAscBy NoteRow.createdAt
            (notesOf db b.id))⟩ : ShapedBoard))).map ShapedBoard.board =
        sortDescBy BoardRow.createdAt
          (db.boards.filter (fun b => b.userId == q)) := by
      rw [List.map_map]
      simp [Function.comp_def]
    rw [hmb]
    exact perm_sortDescBy _ _
  · intro sb hsb
    obtain ⟨b, hb, rfl⟩ := List.mem_map.mp hsb
    have hbf : b ∈ db.boards.filter (fun x => x.userId == q) :=
      (perm_sortDescBy BoardRow.createdAt _).mem_iff.mp hb
    have huser : b.userId = q := by
      have := (List.mem_filter.mp hbf).2
      simpa using this
    refine ⟨huser, ?_, ?_, ?_, ?_, ?_, ?_⟩
    · exact shaped_column_perm db.notes b.id "Start"
    · exact shaped_column_perm db.notes b.id "Stop"
    · exact shaped_column_perm db.notes b.id "Continue"
    · exact shaped_column_sorted db.notes b.id "Start"
    · exact shaped_column_sorted db.notes b.id "Stop"
    · exact shaped_column_sorted db.notes b.id "Continue"

/-- Witness for `getBoards_partitions`: listing the boards of `u1` on a
store with two Start notes (inserted out of order) and one Stop note. -/
theorem getBoards_partitions_witness :
    listBoardsReq.method = .GET ∧ listBoardsReq.pathname = "/boards" ∧
    listBoardsReq.userIdQuery = some "u1" ∧ ("u1" : String) ≠ "" ∧
    (∀ n ∈ dbThreeNotes.notes, validColumnName n.columnName) ∧
    (∃ xs, handle dbThreeNotes listBoardsReq "2024-01-07 00:00:00"
        "2024-01-07 00:00:00" "f1" = ⟨dbThreeNotes, 200, .boardsList xs⟩ ∧
      (xs.map ShapedBoard.board).Perm
        (dbThreeNotes.boards.filter (fun b => b.userId == "u1")) ∧
      (∀ sb ∈ xs, sb.board.userId = "u1" ∧
        sb.columns.colStart.Perm ((dbThreeNotes.notes.filter (fun n =>
          n.columnName == "Start" && n.boardId == sb.board.id)).map shapeNote) ∧
        sb.columns.colStop.Perm ((dbThreeNotes.notes.filter (fun n =>
          n.columnName == "Stop" && n.boardId == sb.board.id)).map shapeNote) ∧
        sb.columns.colContinue.Perm ((dbThreeNotes.notes.filter (fun n =>
          n.columnName == "Continue" && n.boardId == sb.board.id)).map shapeNote) ∧
        sb.columns.colStart.Pairwise
          (fun x y => strLe x.createdAt y.createdAt = true) ∧
        sb.columns.colStop.Pairwise
          (fun x y => strLe x.createdAt y.createdAt = true) ∧
        sb.columns.colContinue.Pairwise
          (fun x y => strLe x.createdAt y.createdAt = true))) :=
  ⟨rfl, rfl, rfl, by decide, by decide,
    getBoards_partitions dbThreeNotes listBoardsReq "u1"
      "2024-01-07 00:00:00" "2024-01-07 00:00:00" "f1"
      rfl rfl rfl (by decide) (by decide)⟩

end RetroBoard
